import Mathlib

set_option maxRecDepth 100000

/-!
Verification of the directory-lookup client (`IASService`,
`src/srv/lib/ias-service.js`): a shallow embedding of its data model and
operations, followed by theorems about its pagination, caching, fallback
and filtering behaviour.

Modelling conventions:
* JavaScript values that may be `undefined`/`null` are `Option`s.
* The asynchronous transport `this.destination.send` is a parameter
  `send : Nat → String → Except JSError Response`: it receives the ordinal
  of the request (how many requests were issued before it) and the request
  path, and either returns the parsed response body or throws.
* Loops (`while`) are coded by structural recursion on the remaining
  number of permitted iterations, which is exactly what the source's
  `safety` counter bounds (200).
* Each operation additionally returns the list of request paths it issued,
  so that claims about "number of remote requests" are statable.
-/

/-! ## Tunable constants (constructor of `IASService`) -/

/-- The page size `this.PAGE_SIZE = 100` (the IAS maximum). -/
def PAGE_SIZE : Nat := 100

/-- The cache TTL `this.CACHE_TTL_MS = 5 * 60 * 1000` (5 minutes), in milliseconds. -/
def CACHE_TTL_MS : Int := 5 * 60 * 1000

/-- The URN `this.EXT_CUSTOM` of the IAS custom-extension schema. -/
def EXT_CUSTOM : String := "urn:sap:cloud:scim:schemas:extension:custom:2.0:User"

/-- The fixed attribute allowlist `this.USER_ATTRS`. -/
def USER_ATTRS : List String := ["userName", "displayName", EXT_CUSTOM]

/-- The string `this.USER_ATTRS.join(",")` as computed in both fetch loops. -/
def ATTRS : String := String.intercalate "," USER_ATTRS

/-! ## `encodeURIComponent`

JavaScript's `encodeURIComponent` leaves the unreserved characters
`A–Z a–z 0–9 - _ . ! ~ * ' ( )` intact and percent-encodes the UTF-8
bytes of every other character. -/

/-- Characters `encodeURIComponent` leaves unescaped. -/
def isUriUnreserved (c : Char) : Bool :=
  c.isAlphanum || c = '-' || c = '_' || c = '.' || c = '!' ||
    c = '~' || c = '*' || c = '\'' || c = '(' || c = ')'

/-- Upper-case hexadecimal digit for `n < 16`. -/
def hexDigitChar (n : Nat) : Char :=
  if n < 10 then Char.ofNat ('0'.toNat + n) else Char.ofNat ('A'.toNat + (n - 10))

/-- The UTF-8 encoding of a character, as a list of bytes. -/
def utf8ByteList (c : Char) : List Nat :=
  let n := c.toNat
  if n < 0x80 then [n]
  else if n < 0x800 then [0xC0 + n / 0x40, 0x80 + n % 0x40]
  else if n < 0x10000 then
    [0xE0 + n / 0x1000, 0x80 + (n / 0x40) % 0x40, 0x80 + n % 0x40]
  else
    [0xF0 + n / 0x40000, 0x80 + (n / 0x1000) % 0x40,
      0x80 + (n / 0x40) % 0x40, 0x80 + n % 0x40]

/-- Percent-encoding of one character. -/
def pctEncodeChar (c : Char) : String :=
  if isUriUnreserved c then String.singleton c
  else String.join ((utf8ByteList c).map fun b =>
    String.mk ['%', hexDigitChar (b / 16), hexDigitChar (b % 16)])

/-- JavaScript `encodeURIComponent`. -/
def encodeURIComponent (s : String) : String :=
  String.join (s.data.map pctEncodeChar)

/-! ## Data model -/

/-- One entry of the custom-extension `attributes` array
(`{ name, value }`; either field may be absent). -/
structure CustomAttr where
  name : Option String := none
  value : Option String := none
deriving DecidableEq, Repr

/-- The custom-extension object stored under the `EXT_CUSTOM` key
of a user record; its `attributes` array may be absent. -/
structure Extension where
  attributes : Option (List CustomAttr) := none
deriving DecidableEq, Repr

/-- A SCIM user record, restricted to the fields the client reads.
`extCustom` models the property stored under the `EXT_CUSTOM` URN key. -/
structure UserRecord where
  userName : Option String := none
  displayName : Option String := none
  extCustom : Option Extension := none
deriving DecidableEq, Repr

/-- The `_mapLite` projection `{ displayName, userName }`. -/
structure LiteUser where
  displayName : Option String := none
  userName : Option String := none
deriving DecidableEq, Repr

/-- A parsed response body.  Any field may be absent (`undefined`). -/
structure Response where
  Resources : Option (List UserRecord) := none
  nextCursor : Option String := none
  NextCursor : Option String := none
  next_cursor : Option String := none
  totalResults : Option Int := none
deriving DecidableEq, Repr

/-- A thrown JavaScript `Error`, with its `message` and optional `code`
property. -/
structure JSError where
  message : String := ""
  code : Option String := none
deriving DecidableEq, Repr

deriving instance DecidableEq for Except

/-- The error raised by `_fetchAllUsersByCursor` when it decides the
server does not support cursor pagination
(`new Error("Cursor pagination unsupported")` with
`err.code = "CURSOR_UNSUPPORTED"`). -/
def cursorUnsupportedError : JSError :=
  { message := "Cursor pagination unsupported", code := some "CURSOR_UNSUPPORTED" }

/-- The cache slot `this._cache = { ts, users }`; `users` is `null`
initially and after `_clearCache`. -/
structure Cache where
  ts : Int := 0
  users : Option (List UserRecord) := none
deriving DecidableEq, Repr

/-- The initial cache (`{ ts: 0, users: null }`). -/
def initialCache : Cache := {}

/-- The transport: request ordinal and path in, parsed body or thrown
error out. -/
abbrev Send := Nat → String → Except JSError Response

/-! ## Path construction and small helpers -/

/-- The path builder `_buildUsersPath`: builds `/Users?k1=v1&k2=v2...`, dropping entries
whose value is empty (the source also drops `undefined`/`null` values,
which have no counterpart here since all passed values are strings),
and `encodeURIComponent`-encoding each value. -/
def _buildUsersPath (paramsObj : List (String × String)) : String :=
  let qs := String.intercalate "&"
    (((paramsObj.filter fun kv => kv.2 != "").map
      fun kv => kv.1 ++ "=" ++ encodeURIComponent kv.2))
  "/Users?" ++ qs

/-- The path of a cursor-mode request with cursor token `c`. -/
def cursorPathFor (c : String) : String :=
  _buildUsersPath [("cursor", c), ("count", toString PAGE_SIZE), ("attributes", ATTRS)]

/-- The path of an offset-mode request with start index `s`. -/
def offsetPathFor (s : Int) : String :=
  _buildUsersPath [("startIndex", toString s), ("count", toString PAGE_SIZE), ("attributes", ATTRS)]

/-- The extractor `_getCompanyValue`: reads `user?.[EXT_CUSTOM]`, then
`ext?.attributes || []`, finds the entry named `customAttribute1` and
returns its `value` (absent anywhere ⇒ `undefined`, i.e. `none`). -/
def _getCompanyValue (user : UserRecord) : Option String :=
  let ext := user.extCustom
  let attrs := (ext.bind Extension.attributes).getD []
  let a := attrs.find? fun x => x.name == some "customAttribute1"
  a.bind CustomAttr.value

/-- The projection `_mapLite` to `{ displayName, userName }`. -/
def _mapLite (user : UserRecord) : LiteUser :=
  { displayName := user.displayName, userName := user.userName }

/-- The check `_isCacheValid`: `this._cache.users && Date.now() - this._cache.ts <
this.CACHE_TTL_MS`.  A non-`null` `users` array is truthy in JavaScript
even when empty, so the check is `isSome`, not non-emptiness. -/
def _isCacheValid (cache : Cache) (now : Int) : Bool :=
  cache.users.isSome && (now - cache.ts < CACHE_TTL_MS)

/-- The cache writer `_setCache`. -/
def _setCache (now : Int) (users : List UserRecord) : Cache :=
  { ts := now, users := some users }

/-- The cache reset `_clearCache`. -/
def _clearCache : Cache := { ts := 0, users := none }

/-- The next-page token:
`res?.nextCursor || res?.NextCursor || res?.next_cursor || null` —
the first of the three spellings that is truthy (present and non-empty). -/
def nextCursorOf (res : Response) : Option String :=
  let orS : Option String → Option String → Option String := fun a b =>
    match a with
    | some s => if s = "" then b else some s
    | none => b
  orS res.nextCursor (orS res.NextCursor (orS res.next_cursor none))

/-! ## Cursor pagination (`_fetchAllUsersByCursor`) -/

/-- The body of the `while (true)` loop of `_fetchAllUsersByCursor`.
`fuel` is the number of iterations still permitted by the `safety`
counter (the loop breaks when `safety` exceeds 200, i.e. when `fuel`
reaches 0); `safety` is the counter's value in the current iteration. -/
def cursorLoop (send : Send) :
    Nat → Nat → String → List UserRecord → List String →
    Except JSError (List UserRecord) × List String
  | 0, _, _, acc, log => (.ok acc, log)
  | fuel + 1, safety, cursor, acc, log =>
    let path := cursorPathFor cursor
    let log2 := log ++ [path]
    match send log.length path with
    | .error e => (.error e, log2)
    | .ok res =>
      let users := (res.Resources).getD []
      let acc2 := acc ++ users
      match nextCursorOf res with
      | some c => cursorLoop send fuel (safety + 1) c acc2 log2
      | none =>
        if users.length < PAGE_SIZE then (.ok acc2, log2)
        else if users.length == PAGE_SIZE && safety == 1 then
          (.error cursorUnsupportedError, log2)
        else cursorLoop send fuel (safety + 1) cursor acc2 log2

/-- The operation `_fetchAllUsersByCursor`: cursor starts empty, safety starts at 0 and
is incremented to 1 in the first iteration; 200 iterations are permitted. -/
def _fetchAllUsersByCursor (send : Send) :
    Except JSError (List UserRecord) × List String :=
  cursorLoop send 200 1 "" [] []

/-! ## Offset pagination (`_fetchAllUsersByStartIndex`) -/

/-- The loop condition `startIndex <= totalResults`, where `none` is the initial
`Infinity`. -/
def leTotal (s : Int) : Option Int → Bool
  | none => true
  | some t => s ≤ t

/-- The body of the `while (startIndex <= totalResults)` loop of
`_fetchAllUsersByStartIndex`.  The while condition is tested before the
`safety` increment, and `safety > 200` and an exhausted condition both
exit with the accumulated records, so fuel exhaustion and a false
condition coincide in their results. -/
def startIndexLoop (send : Send) :
    Nat → Int → Option Int → List UserRecord → List String →
    Except JSError (List UserRecord) × List String
  | 0, _, _, acc, log => (.ok acc, log)
  | fuel + 1, startIndex, total, acc, log =>
    if leTotal startIndex total then
      let path := offsetPathFor startIndex
      let log2 := log ++ [path]
      match send log.length path with
      | .error e => (.error e, log2)
      | .ok res =>
        let users := (res.Resources).getD []
        let acc2 := acc ++ users
        let total2 : Option Int := some ((res.totalResults).getD 0)
        if users.length == 0 then (.ok acc2, log2)
        else startIndexLoop send fuel (startIndex + (PAGE_SIZE : Int)) total2 acc2 log2
    else (.ok acc, log)

/-- The operation `_fetchAllUsersByStartIndex`: start index 1, `totalResults`
initially `Infinity`, 200 iterations permitted. -/
def _fetchAllUsersByStartIndex (send : Send) :
    Except JSError (List UserRecord) × List String :=
  startIndexLoop send 200 1 none [] []

/-! ## `getAllUsers` and `getUsersByCompany` -/

/-- The `try { cursor } catch { offset }` composition inside
`getAllUsers`: the cursor strategy is attempted first and ANY exception
from it (the `catch` has no filter) switches to the offset strategy. -/
def _fullFetch (send : Send) :
    Except JSError (List UserRecord) × List String :=
  match _fetchAllUsersByCursor send with
  | (.ok users, log) => (.ok users, log)
  | (.error _, log1) =>
    match _fetchAllUsersByStartIndex send with
    | (r, log2) => (r, log1 ++ log2)

/-- The operation `getAllUsers({ forceRefresh })`: serve from the cache when allowed,
otherwise fetch, store and return.  Result, new cache state, and issued
request paths. -/
def getAllUsers (send : Send) (cache : Cache) (now : Int)
    (forceRefresh : Bool) :
    Except JSError (List UserRecord) × Cache × List String :=
  if !forceRefresh && _isCacheValid cache now then
    (.ok (cache.users.getD []), cache, [])
  else
    match _fullFetch send with
    | (.ok users, log) => (.ok users, _setCache now users, log)
    | (.error e, log) => (.error e, cache, log)

/-- The operation `getUsersByCompany(companyName, { forceRefresh })`: empty name short-
circuits; otherwise filter `getAllUsers`'s result by strict equality of
the extracted company value and project with `_mapLite`. -/
def getUsersByCompany (send : Send) (cache : Cache) (now : Int)
    (companyName : String) (forceRefresh : Bool) :
    Except JSError (List LiteUser) × Cache × List String :=
  if companyName = "" then (.ok [], cache, [])
  else
    match getAllUsers send cache now forceRefresh with
    | (.ok users, cache2, log) =>
      (.ok ((users.filter fun u => _getCompanyValue u == some companyName).map _mapLite),
        cache2, log)
    | (.error e, cache2, log) => (.error e, cache2, log)

/-- The operation `invalidateCache`. -/
def invalidateCache (_cache : Cache) : Cache := _clearCache

/-! ## Step lemmas for the two loops -/

section StepLemmas

variable (send : Send)

theorem cursorLoop_zero (safety : Nat) (cursor : String)
    (acc : List UserRecord) (log : List String) :
    cursorLoop send 0 safety cursor acc log = (.ok acc, log) := rfl

theorem cursorLoop_error {res : JSError} {fuel safety : Nat} {cursor : String}
    {acc : List UserRecord} {log : List String}
    (h : send log.length (cursorPathFor cursor) = .error res) :
    cursorLoop send (fuel + 1) safety cursor acc log =
      (.error res, log ++ [cursorPathFor cursor]) := by
  simp [cursorLoop, h]

theorem cursorLoop_token {res : Response} {c : String} {fuel safety : Nat}
    {cursor : String} {acc : List UserRecord} {log : List String}
    (h : send log.length (cursorPathFor cursor) = .ok res)
    (hc : nextCursorOf res = some c) :
    cursorLoop send (fuel + 1) safety cursor acc log =
      cursorLoop send fuel (safety + 1) c (acc ++ (res.Resources).getD [])
        (log ++ [cursorPathFor cursor]) := by
  simp [cursorLoop, h, hc]

theorem cursorLoop_last {res : Response} {fuel safety : Nat}
    {cursor : String} {acc : List UserRecord} {log : List String}
    (h : send log.length (cursorPathFor cursor) = .ok res)
    (hc : nextCursorOf res = none)
    (hlt : ((res.Resources).getD []).length < PAGE_SIZE) :
    cursorLoop send (fuel + 1) safety cursor acc log =
      (.ok (acc ++ (res.Resources).getD []), log ++ [cursorPathFor cursor]) := by
  simp [cursorLoop, h, hc, hlt]

theorem cursorLoop_unsupported {res : Response} {fuel : Nat}
    {cursor : String} {acc : List UserRecord} {log : List String}
    (h : send log.length (cursorPathFor cursor) = .ok res)
    (hc : nextCursorOf res = none)
    (hlen : ((res.Resources).getD []).length = PAGE_SIZE) :
    cursorLoop send (fuel + 1) 1 cursor acc log =
      (.error cursorUnsupportedError, log ++ [cursorPathFor cursor]) := by
  simp [cursorLoop, h, hc, hlen]

theorem cursorLoop_repeat {res : Response} {fuel safety : Nat}
    {cursor : String} {acc : List UserRecord} {log : List String}
    (h : send log.length (cursorPathFor cursor) = .ok res)
    (hc : nextCursorOf res = none)
    (hlen : ((res.Resources).getD []).length = PAGE_SIZE)
    (hs : safety ≠ 1) :
    cursorLoop send (fuel + 1) safety cursor acc log =
      cursorLoop send fuel (safety + 1) cursor (acc ++ (res.Resources).getD [])
        (log ++ [cursorPathFor cursor]) := by
  simp [cursorLoop, h, hc, hlen, hs]

theorem startIndexLoop_zero (s : Int) (total : Option Int)
    (acc : List UserRecord) (log : List String) :
    startIndexLoop send 0 s total acc log = (.ok acc, log) := rfl

theorem startIndexLoop_exceed {fuel : Nat} {s : Int} {total : Option Int}
    {acc : List UserRecord} {log : List String}
    (h : leTotal s total = false) :
    startIndexLoop send fuel s total acc log = (.ok acc, log) := by
  cases fuel with
  | zero => rfl
  | succ n => simp [startIndexLoop, h]

theorem startIndexLoop_error {e : JSError} {fuel : Nat} {s : Int}
    {total : Option Int} {acc : List UserRecord} {log : List String}
    (hle : leTotal s total = true)
    (h : send log.length (offsetPathFor s) = .error e) :
    startIndexLoop send (fuel + 1) s total acc log =
      (.error e, log ++ [offsetPathFor s]) := by
  simp [startIndexLoop, hle, h]

theorem startIndexLoop_empty {res : Response} {fuel : Nat} {s : Int}
    {total : Option Int} {acc : List UserRecord} {log : List String}
    (hle : leTotal s total = true)
    (h : send log.length (offsetPathFor s) = .ok res)
    (hz : (res.Resources).getD [] = []) :
    startIndexLoop send (fuel + 1) s total acc log =
      (.ok acc, log ++ [offsetPathFor s]) := by
  simp [startIndexLoop, hle, h, hz]

theorem startIndexLoop_advance {res : Response} {fuel : Nat} {s : Int}
    {total : Option Int} {acc : List UserRecord} {log : List String}
    (hle : leTotal s total = true)
    (h : send log.length (offsetPathFor s) = .ok res)
    (hz : (res.Resources).getD [] ≠ []) :
    startIndexLoop send (fuel + 1) s total acc log =
      startIndexLoop send fuel (s + (PAGE_SIZE : Int))
        (some ((res.totalResults).getD 0))
        (acc ++ (res.Resources).getD []) (log ++ [offsetPathFor s]) := by
  have hz' : ((res.Resources).getD []).length ≠ 0 := by
    simpa [List.length_eq_zero] using hz
  simp [startIndexLoop, hle, h, hz']

/-! ## Log and shape lemmas -/

/-- The cursor loop only appends to the request log. -/
theorem cursorLoop_log_extend :
    ∀ (fuel safety : Nat) (cursor : String) (acc : List UserRecord)
      (log : List String),
    ∃ l2, (cursorLoop send fuel safety cursor acc log).2 = log ++ l2 := by
  intro fuel
  induction fuel with
  | zero => intro safety cursor acc log; exact ⟨[], by simp [cursorLoop_zero]⟩
  | succ n ih =>
    intro safety cursor acc log
    cases hs : send log.length (cursorPathFor cursor) with
    | error e =>
      exact ⟨[cursorPathFor cursor], by rw [cursorLoop_error send hs]⟩
    | ok res =>
      cases hc : nextCursorOf res with
      | some c =>
        obtain ⟨l2, h2⟩ := ih (safety + 1) c (acc ++ (res.Resources).getD [])
          (log ++ [cursorPathFor cursor])
        exact ⟨cursorPathFor cursor :: l2, by
          rw [cursorLoop_token send hs hc, h2]; simp⟩
      | none =>
        by_cases hlt : ((res.Resources).getD []).length < PAGE_SIZE
        · exact ⟨[cursorPathFor cursor], by rw [cursorLoop_last send hs hc hlt]⟩
        · by_cases hub : (((res.Resources).getD []).length == PAGE_SIZE &&
              safety == 1) = true
          · have hlen : ((res.Resources).getD []).length = PAGE_SIZE := by
              simpa using (Bool.and_eq_true_iff.mp hub).1
            have hone : safety = 1 := by
              simpa using (Bool.and_eq_true_iff.mp hub).2
            subst hone
            exact ⟨[cursorPathFor cursor], by
              rw [cursorLoop_unsupported send hs hc hlen]⟩
          · -- fall-through: loop again with the same cursor
            have hstep : cursorLoop send (n + 1) safety cursor acc log =
                cursorLoop send n (safety + 1) cursor
                  (acc ++ (res.Resources).getD []) (log ++ [cursorPathFor cursor]) := by
              have hb : (((res.Resources).getD []).length == PAGE_SIZE &&
                  safety == 1) = false := by
                simpa using hub
              simp [cursorLoop, hs, hc, hlt, hb]
            obtain ⟨l2, h2⟩ := ih (safety + 1) cursor
              (acc ++ (res.Resources).getD []) (log ++ [cursorPathFor cursor])
            exact ⟨cursorPathFor cursor :: l2, by rw [hstep, h2]; simp⟩

/-- The offset loop only appends to the request log. -/
theorem startIndexLoop_log_extend :
    ∀ (fuel : Nat) (s : Int) (total : Option Int) (acc : List UserRecord)
      (log : List String),
    ∃ l2, (startIndexLoop send fuel s total acc log).2 = log ++ l2 := by
  intro fuel
  induction fuel with
  | zero => intro s total acc log; exact ⟨[], by simp [startIndexLoop_zero]⟩
  | succ n ih =>
    intro s total acc log
    by_cases hle : leTotal s total
    · cases hs : send log.length (offsetPathFor s) with
      | error e =>
        exact ⟨[offsetPathFor s], by rw [startIndexLoop_error send hle hs]⟩
      | ok res =>
        by_cases hz : (res.Resources).getD [] = []
        · exact ⟨[offsetPathFor s], by rw [startIndexLoop_empty send hle hs hz]⟩
        · obtain ⟨l2, h2⟩ := ih (s + (PAGE_SIZE : Int))
            (some ((res.totalResults).getD 0))
            (acc ++ (res.Resources).getD []) (log ++ [offsetPathFor s])
          exact ⟨offsetPathFor s :: l2, by
            rw [startIndexLoop_advance send hle hs hz, h2]; simp⟩
    · exact ⟨[], by rw [startIndexLoop_exceed send (by simpa using hle)]; simp⟩

/-- Every error escaping the offset loop came out of `send`. -/
theorem startIndexLoop_error_of_send :
    ∀ (fuel : Nat) (s : Int) (total : Option Int) (acc : List UserRecord)
      (log : List String) (e : JSError),
    (startIndexLoop send fuel s total acc log).1 = .error e →
    ∃ i p, send i p = .error e := by
  intro fuel
  induction fuel with
  | zero => intro s total acc log e h; simp [startIndexLoop_zero] at h
  | succ n ih =>
    intro s total acc log e h
    by_cases hle : leTotal s total
    · cases hs : send log.length (offsetPathFor s) with
      | error e2 =>
        rw [startIndexLoop_error send hle hs] at h
        simp at h
        exact ⟨log.length, offsetPathFor s, by rw [hs, h]⟩
      | ok res =>
        by_cases hz : (res.Resources).getD [] = []
        · rw [startIndexLoop_empty send hle hs hz] at h; simp at h
        · rw [startIndexLoop_advance send hle hs hz] at h
          exact ih _ _ _ _ e h
    · rw [startIndexLoop_exceed send (by simpa using hle)] at h; simp at h

end StepLemmas

/-! ## List helpers -/

theorem flatMap_range_succ_head {α : Type} (f : Nat → List α) (n : Nat) :
    (List.range (n + 1)).flatMap f = f 0 ++ (List.range n).flatMap (fun i => f (i + 1)) := by
  rw [List.range_succ_eq_map]
  simp [List.flatMap_cons, List.flatMap_map]

theorem length_flatMap_range {α : Type} (f : Nat → List α) (n k : Nat)
    (h : ∀ i, i < n → (f i).length = k) :
    ((List.range n).flatMap f).length = n * k := by
  induction n with
  | zero => simp
  | succ m ih =>
    rw [List.range_succ, List.flatMap_append]
    simp only [List.length_append, ih (fun i hi => h i (by omega)),
      List.flatMap_cons, List.flatMap_nil, List.append_nil, h m (by omega)]
    ring

theorem flatMap_range_shift {α : Type} (f : Nat → List α) (n k : Nat) :
    (List.range n).flatMap (fun i => f (k + (i + 1))) =
      (List.range n).flatMap (fun i => f ((k + 1) + i)) :=
  List.flatMap_congr fun i _ => by rw [show k + (i + 1) = (k + 1) + i by omega]

/-! ## Run lemmas for the cursor loop -/

/-- If the server answers every one of the next `fuel` requests with a
response carrying a next-cursor token, the cursor loop performs exactly
`fuel` iterations, returns all accumulated records, and exits without
an error. -/
theorem cursorLoop_all_tokens (send : Send) (resp : Nat → Response) :
    ∀ (fuel safety : Nat) (cursor : String) (acc : List UserRecord)
      (log : List String),
    (∀ i, i < fuel → ∀ p, send (log.length + i) p = .ok (resp (log.length + i))) →
    (∀ i, i < fuel → (nextCursorOf (resp (log.length + i))).isSome) →
    ∃ l2,
      cursorLoop send fuel safety cursor acc log =
        (.ok (acc ++ (List.range fuel).flatMap
          fun i => ((resp (log.length + i)).Resources).getD []), log ++ l2) ∧
      l2.length = fuel := by
  intro fuel
  induction fuel with
  | zero =>
    intro safety cursor acc log _ _
    exact ⟨[], by simp [cursorLoop_zero]⟩
  | succ n ih =>
    intro safety cursor acc log hsend htok
    have hs : send log.length (cursorPathFor cursor) = .ok (resp log.length) := by
      simpa using hsend 0 (by omega) (cursorPathFor cursor)
    obtain ⟨c, hc⟩ := Option.isSome_iff_exists.mp (by simpa using htok 0 (by omega))
    rw [cursorLoop_token send hs hc]
    have hlen2 : (log ++ [cursorPathFor cursor]).length = log.length + 1 := by simp
    have hsend2 : ∀ i, i < n → ∀ p,
        send ((log ++ [cursorPathFor cursor]).length + i) p =
          .ok (resp ((log ++ [cursorPathFor cursor]).length + i)) := by
      intro i hi p
      rw [hlen2]
      have := hsend (1 + i) (by omega) p
      simpa [Nat.add_assoc] using this
    have htok2 : ∀ i, i < n →
        (nextCursorOf (resp ((log ++ [cursorPathFor cursor]).length + i))).isSome := by
      intro i hi
      rw [hlen2]
      have := htok (1 + i) (by omega)
      simpa [Nat.add_assoc] using this
    obtain ⟨l2, heq, hl2⟩ := ih (safety + 1) c (acc ++ ((resp log.length).Resources).getD [])
      (log ++ [cursorPathFor cursor]) hsend2 htok2
    refine ⟨cursorPathFor cursor :: l2, ?_, by simp [hl2]⟩
    rw [heq, hlen2]
    rw [flatMap_range_succ_head (fun i => ((resp (log.length + i)).Resources).getD []) n]
    simp [flatMap_range_shift (fun j => ((resp j).Resources).getD []) n log.length,
      List.append_assoc]

/-- If the server answers the next `N` requests with token-bearing pages
and the `N+1`-st with a token-less page shorter than the page size, the
cursor loop returns all `N+1` pages in order using `N+1` requests. -/
theorem cursorLoop_pages (send : Send) (resp : Nat → Response) :
    ∀ (N fuel safety : Nat) (cursor : String) (acc : List UserRecord)
      (log : List String),
    (∀ i, i ≤ N → ∀ p, send (log.length + i) p = .ok (resp (log.length + i))) →
    (∀ i, i < N → (nextCursorOf (resp (log.length + i))).isSome) →
    nextCursorOf (resp (log.length + N)) = none →
    (((resp (log.length + N)).Resources).getD []).length < PAGE_SIZE →
    N < fuel →
    ∃ l2,
      cursorLoop send fuel safety cursor acc log =
        (.ok (acc ++ (List.range (N + 1)).flatMap
          fun i => ((resp (log.length + i)).Resources).getD []), log ++ l2) ∧
      l2.length = N + 1 := by
  intro N
  induction N with
  | zero =>
    intro fuel safety cursor acc log hsend _ hlast hsmall hfuel
    obtain ⟨m, rfl⟩ : ∃ m, fuel = m + 1 := ⟨fuel - 1, by omega⟩
    have hs : send log.length (cursorPathFor cursor) = .ok (resp log.length) := by
      simpa using hsend 0 (by omega) (cursorPathFor cursor)
    rw [cursorLoop_last send hs (by simpa using hlast) (by simpa using hsmall)]
    exact ⟨[cursorPathFor cursor], by simp [List.range_succ], by simp⟩
  | succ n ih =>
    intro fuel safety cursor acc log hsend htok hlast hsmall hfuel
    obtain ⟨m, rfl⟩ : ∃ m, fuel = m + 1 := ⟨fuel - 1, by omega⟩
    have hs : send log.length (cursorPathFor cursor) = .ok (resp log.length) := by
      simpa using hsend 0 (by omega) (cursorPathFor cursor)
    obtain ⟨c, hc⟩ := Option.isSome_iff_exists.mp (by simpa using htok 0 (by omega))
    rw [cursorLoop_token send hs hc]
    have hlen2 : (log ++ [cursorPathFor cursor]).length = log.length + 1 := by simp
    have hsend2 : ∀ i, i ≤ n → ∀ p,
        send ((log ++ [cursorPathFor cursor]).length + i) p =
          .ok (resp ((log ++ [cursorPathFor cursor]).length + i)) := by
      intro i hi p
      rw [hlen2]
      have := hsend (1 + i) (by omega) p
      simpa [Nat.add_assoc] using this
    have htok2 : ∀ i, i < n →
        (nextCursorOf (resp ((log ++ [cursorPathFor cursor]).length + i))).isSome := by
      intro i hi
      rw [hlen2]
      have := htok (1 + i) (by omega)
      simpa [Nat.add_assoc] using this
    have hlast2 : nextCursorOf (resp ((log ++ [cursorPathFor cursor]).length + n)) = none := by
      rw [hlen2]
      simpa [Nat.add_assoc, Nat.add_comm 1 n] using hlast
    have hsmall2 :
        (((resp ((log ++ [cursorPathFor cursor]).length + n)).Resources).getD []).length
          < PAGE_SIZE := by
      rw [hlen2]
      simpa [Nat.add_assoc, Nat.add_comm 1 n] using hsmall
    obtain ⟨l2, heq, hl2⟩ := ih m (safety + 1) c
      (acc ++ ((resp log.length).Resources).getD []) (log ++ [cursorPathFor cursor])
      hsend2 htok2 hlast2 hsmall2 (by omega)
    refine ⟨cursorPathFor cursor :: l2, ?_, by simp [hl2]⟩
    rw [heq, hlen2]
    rw [flatMap_range_succ_head (fun i => ((resp (log.length + i)).Resources).getD []) (n + 1)]
    simp [flatMap_range_shift (fun j => ((resp j).Resources).getD []) (n + 1) log.length,
      List.append_assoc]

/-- If the server keeps answering the request for cursor `cursor` with the
same full, token-less page (and the safety counter is already past 1), the
loop re-issues the identical request and re-appends the identical page
until the fuel runs out. -/
theorem cursorLoop_stuck (send : Send) (res : Response) (cursor : String)
    (hsend : ∀ i, send i (cursorPathFor cursor) = .ok res)
    (hc : nextCursorOf res = none)
    (hlen : ((res.Resources).getD []).length = PAGE_SIZE) :
    ∀ (fuel safety : Nat) (acc : List UserRecord) (log : List String),
    2 ≤ safety →
    cursorLoop send fuel safety cursor acc log =
      (.ok (acc ++ (List.replicate fuel ((res.Resources).getD [])).flatten),
        log ++ List.replicate fuel (cursorPathFor cursor)) := by
  intro fuel
  induction fuel with
  | zero =>
    intro safety acc log _
    simp [cursorLoop_zero]
  | succ n ih =>
    intro safety acc log hsafety
    rw [cursorLoop_repeat send (hsend log.length) hc hlen (by omega)]
    rw [ih (safety + 1) (acc ++ (res.Resources).getD [])
      (log ++ [cursorPathFor cursor]) (by omega)]
    simp [List.replicate_succ, List.append_assoc]

/-- If the server answers each of the next `fuel` offset requests with a
non-empty page and a fixed `totalResults` that keeps every subsequent
start index in range, the offset loop performs exactly `fuel` iterations
and returns all accumulated records without an error. -/
theorem startIndexLoop_full (send : Send) (oresp : Nat → Response) (T : Int) :
    ∀ (fuel : Nat) (s : Int) (total : Option Int) (acc : List UserRecord)
      (log : List String),
    (∀ i, i < fuel → ∀ p, send (log.length + i) p = .ok (oresp (log.length + i))) →
    (∀ i, i < fuel → ((oresp (log.length + i)).Resources).getD [] ≠ []) →
    (∀ i, i < fuel → (oresp (log.length + i)).totalResults = some T) →
    leTotal s total = true →
    s + (PAGE_SIZE : Int) * fuel ≤ T →
    ∃ l2,
      startIndexLoop send fuel s total acc log =
        (.ok (acc ++ (List.range fuel).flatMap
          fun i => ((oresp (log.length + i)).Resources).getD []), log ++ l2) ∧
      l2.length = fuel := by
  intro fuel
  induction fuel with
  | zero =>
    intro s total acc log _ _ _ _ _
    exact ⟨[], by simp [startIndexLoop_zero]⟩
  | succ n ih =>
    intro s total acc log hsend hne htot hle hT
    have hs : send log.length (offsetPathFor s) = .ok (oresp log.length) := by
      simpa using hsend 0 (by omega) (offsetPathFor s)
    rw [startIndexLoop_advance send hle hs (by simpa using hne 0 (by omega))]
    have htot0 : (oresp log.length).totalResults = some T := by
      simpa using htot 0 (by omega)
    have hlen2 : (log ++ [offsetPathFor s]).length = log.length + 1 := by simp
    have hsend2 : ∀ i, i < n → ∀ p,
        send ((log ++ [offsetPathFor s]).length + i) p =
          .ok (oresp ((log ++ [offsetPathFor s]).length + i)) := by
      intro i hi p
      rw [hlen2]
      have := hsend (1 + i) (by omega) p
      simpa [Nat.add_assoc] using this
    have hne2 : ∀ i, i < n →
        ((oresp ((log ++ [offsetPathFor s]).length + i)).Resources).getD [] ≠ [] := by
      intro i hi
      rw [hlen2]
      have := hne (1 + i) (by omega)
      simpa [Nat.add_assoc] using this
    have htot2 : ∀ i, i < n →
        (oresp ((log ++ [offsetPathFor s]).length + i)).totalResults = some T := by
      intro i hi
      rw [hlen2]
      have := htot (1 + i) (by omega)
      simpa [Nat.add_assoc] using this
    have hle2 : leTotal (s + (PAGE_SIZE : Int)) (some ((oresp log.length).totalResults.getD 0))
        = true := by
      rw [htot0]
      have : s + (PAGE_SIZE : Int) ≤ T := by
        have hnn : (0 : Int) ≤ (PAGE_SIZE : Int) * n := by positivity
        push_cast at hT ⊢
        nlinarith
      simpa [leTotal] using this
    have hT2 : (s + (PAGE_SIZE : Int)) + (PAGE_SIZE : Int) * n ≤ T := by
      push_cast at hT ⊢
      nlinarith
    obtain ⟨l2, heq, hl2⟩ := ih (s + (PAGE_SIZE : Int))
      (some ((oresp log.length).totalResults.getD 0))
      (acc ++ ((oresp log.length).Resources).getD []) (log ++ [offsetPathFor s])
      hsend2 hne2 htot2 hle2 hT2
    refine ⟨offsetPathFor s :: l2, ?_, by simp [hl2]⟩
    rw [heq, hlen2]
    rw [flatMap_range_succ_head (fun i => ((oresp (log.length + i)).Resources).getD []) n]
    simp [flatMap_range_shift (fun j => ((oresp j).Resources).getD []) n log.length,
      List.append_assoc]

/-! ## Fixed sample records for witnesses -/

/-- A sample user record. -/
def wUserA : UserRecord :=
  { userName := some "alice", displayName := some "Alice" }

/-- Another sample user record. -/
def wUserB : UserRecord :=
  { userName := some "bob", displayName := some "Bob" }

/-! ## Claims -/

/-- C4: against a server whose every response carries a next-cursor token
and a full page, the cursor fetch performs exactly 200 iterations (one
request each), returns everything accumulated and raises no error; the
same 200-iteration bound also stops the offset loop when the server keeps
every start index in range with non-empty pages. -/
theorem claim_C4_safety_bound (resp oresp : Nat → Response) (T : Int)
    (htokC : ∀ i, i < 200 → (nextCursorOf (resp i)).isSome)
    (hfullC : ∀ i, i < 200 → (((resp i).Resources).getD []).length = PAGE_SIZE)
    (hfullO : ∀ i, i < 200 → (((oresp i).Resources).getD []).length = PAGE_SIZE)
    (htotO : ∀ i, i < 200 → (oresp i).totalResults = some T)
    (hT : 20001 ≤ T) :
    (∃ l2, _fetchAllUsersByCursor (fun i _ => .ok (resp i)) =
        (.ok ((List.range 200).flatMap fun i => ((resp i).Resources).getD []), l2)
      ∧ l2.length = 200) ∧
    (∃ l2, _fetchAllUsersByStartIndex (fun i _ => .ok (oresp i)) =
        (.ok ((List.range 200).flatMap fun i => ((oresp i).Resources).getD []), l2)
      ∧ l2.length = 200) := by
  constructor
  · obtain ⟨l2, heq, hl2⟩ := cursorLoop_all_tokens (fun i _ => .ok (resp i)) resp
      200 1 "" [] []
      (fun i hi p => by simpa using rfl)
      (fun i hi => by simpa using htokC i (by simpa using hi))
    exact ⟨l2, by simpa [_fetchAllUsersByCursor] using heq, hl2⟩
  · obtain ⟨l2, heq, hl2⟩ := startIndexLoop_full (fun i _ => .ok (oresp i)) oresp T
      200 1 none [] []
      (fun i hi p => by simpa using rfl)
      (fun i hi => by
        have := hfullO i (by simpa using hi)
        intro hnil
        simp only [List.length_nil, Nat.zero_add] at hnil
        rw [hnil] at this
        simp [PAGE_SIZE] at this)
      (fun i hi => by simpa using htotO i (by simpa using hi))
      rfl
      (by simp only [PAGE_SIZE]; push_cast; omega)
    exact ⟨l2, by simpa [_fetchAllUsersByStartIndex] using heq, hl2⟩

/-- A server for the C4 witness: always a full page plus a token
(cursor mode) resp. a full page plus `totalResults` (offset mode). -/
def c4resp : Nat → Response := fun _ =>
  { Resources := some (List.replicate 100 wUserA), nextCursor := some "c" }

/-- Offset-mode responses for the C4 witness. -/
def c4oresp : Nat → Response := fun _ =>
  { Resources := some (List.replicate 100 wUserA), totalResults := some 100000 }

theorem claim_C4_safety_bound_witness :
    ((∀ i, i < 200 → (nextCursorOf (c4resp i)).isSome = true) ∧
      (∀ i, i < 200 → (((c4resp i).Resources).getD []).length = PAGE_SIZE) ∧
      (∀ i, i < 200 → (((c4oresp i).Resources).getD []).length = PAGE_SIZE) ∧
      (∀ i, i < 200 → (c4oresp i).totalResults = some 100000) ∧
      (20001 : Int) ≤ 100000) ∧
    ((∃ l2, _fetchAllUsersByCursor (fun i _ => .ok (c4resp i)) =
        (.ok ((List.range 200).flatMap fun i => ((c4resp i).Resources).getD []), l2)
      ∧ l2.length = 200) ∧
    (∃ l2, _fetchAllUsersByStartIndex (fun i _ => .ok (c4oresp i)) =
        (.ok ((List.range 200).flatMap fun i => ((c4oresp i).Resources).getD []), l2)
      ∧ l2.length = 200)) :=
  have h1 : ∀ i, i < 200 → (nextCursorOf (c4resp i)).isSome = true := fun _ _ => rfl
  have h2 : ∀ i, i < 200 → (((c4resp i).Resources).getD []).length = PAGE_SIZE :=
    fun _ _ => rfl
  have h3 : ∀ i, i < 200 → (((c4oresp i).Resources).getD []).length = PAGE_SIZE :=
    fun _ _ => rfl
  have h4 : ∀ i, i < 200 → (c4oresp i).totalResults = some 100000 := fun _ _ => rfl
  ⟨⟨h1, h2, h3, h4, by norm_num⟩,
    claim_C4_safety_bound c4resp c4oresp 100000 h1 h2 h3 h4 (by norm_num)⟩

/-- The mock server of spec property P3: `N` full pages each carrying a
cursor token, then a final page with no token. -/
def c2server (N : Nat) (pages : Nat → List UserRecord) (tok : Nat → String)
    (final : List UserRecord) : Send := fun i _ =>
  if i < N then .ok { Resources := some (pages i), nextCursor := some (tok i) }
  else .ok { Resources := some final }

/-- C2 (amended: `N ≤ 199` so the 200-iteration safety bound is not hit):
with `N` token-bearing pages of exactly 100 records and a final page of
37 records without a token, the cursor fetch returns the `100·N + 37`
records in page order using exactly `N + 1` requests. -/
theorem claim_C2_cursor_termination (N : Nat) (pages : Nat → List UserRecord)
    (tok : Nat → String) (final : List UserRecord)
    (hN : N ≤ 199)
    (hp : ∀ i, i < N → (pages i).length = PAGE_SIZE)
    (ht : ∀ i, i < N → tok i ≠ "")
    (hf : final.length = 37) :
    ∃ l2, _fetchAllUsersByCursor (c2server N pages tok final) =
        (.ok ((List.range N).flatMap pages ++ final), l2) ∧
      l2.length = N + 1 ∧
      ((List.range N).flatMap pages ++ final).length = 100 * N + 37 := by
  obtain ⟨l2, heq, hl2⟩ := cursorLoop_pages (c2server N pages tok final)
    (fun i => if i < N then { Resources := some (pages i), nextCursor := some (tok i) }
      else { Resources := some final })
    N 200 1 "" [] []
    (by
      intro i hi p
      simp only [List.length_nil, Nat.zero_add]
      by_cases h : i < N <;> simp [c2server, h])
    (fun i hi => by
      simp only [List.length_nil, Nat.zero_add, hi, if_pos]
      have := ht i hi
      simp [nextCursorOf, this])
    (by simp [nextCursorOf])
    (by simpa [hf, PAGE_SIZE] using by norm_num)
    (by omega)
  have hflat : (List.range (N + 1)).flatMap
      (fun i => ((if i < N then
          ({ Resources := some (pages i), nextCursor := some (tok i) } : Response)
        else { Resources := some final }).Resources).getD []) =
      (List.range N).flatMap pages ++ final := by
    rw [List.range_succ, List.flatMap_append]
    congr 1
    · refine List.flatMap_congr fun i hi => ?_
      have : i < N := List.mem_range.mp hi
      simp [this]
    · simp
  have hlen : ((List.range N).flatMap pages ++ final).length = 100 * N + 37 := by
    rw [List.length_append, hf,
      length_flatMap_range pages N PAGE_SIZE (fun i hi => hp i hi)]
    simp [PAGE_SIZE]
    ring
  refine ⟨l2, ?_, hl2, hlen⟩
  simpa [_fetchAllUsersByCursor, hflat] using heq


/-- The P3 server with `N = 200`: 200 full token-bearing pages before
the final 37-record page. -/
def c2ceServer : Send :=
  c2server 200 (fun _ => List.replicate 100 wUserA) (fun _ => "c")
    (List.replicate 37 wUserB)

/-- C2, counterexample to the unbounded claim ("for every N ≥ 0"): at
`N = 200` the safety bound cuts the traversal at 200 requests and 20000
records, not the claimed `100·200 + 37` records in `200 + 1` requests. -/
theorem claim_C2_counterexample :
    ∃ users l2, _fetchAllUsersByCursor c2ceServer = (.ok users, l2) ∧
      users.length = 20000 ∧ l2.length = 200 ∧
      ¬(users.length = 100 * 200 + 37 ∧ l2.length = 200 + 1) := by
  obtain ⟨l2, heq, hl2⟩ := cursorLoop_all_tokens c2ceServer
    (fun _ => { Resources := some (List.replicate 100 wUserA), nextCursor := some "c" })
    200 1 "" [] []
    (fun i hi p => by
      simp only [List.length_nil, Nat.zero_add]
      have h : i < 200 := by simpa using hi
      simp [c2ceServer, c2server, h])
    (fun i hi => by simp [nextCursorOf])
  refine ⟨_, l2, heq, ?_, hl2, ?_⟩
  · rw [List.nil_append, length_flatMap_range _ 200 100 (fun i _ => by simp)]
  · rw [List.nil_append, length_flatMap_range _ 200 100 (fun i _ => by simp)]
    omega

/-- Pages for the C2 witness. -/
def c2wPages : Nat → List UserRecord := fun _ => List.replicate 100 wUserA

/-- Tokens for the C2 witness. -/
def c2wTok : Nat → String := fun _ => "c"

/-- Final short page for the C2 witness. -/
def c2wFinal : List UserRecord := List.replicate 37 wUserB

theorem claim_C2_cursor_termination_witness :
    ((2 : Nat) ≤ 199 ∧
      (∀ i, i < 2 → (c2wPages i).length = PAGE_SIZE) ∧
      (∀ i, i < 2 → c2wTok i ≠ "") ∧
      c2wFinal.length = 37) ∧
    (∃ l2, _fetchAllUsersByCursor (c2server 2 c2wPages c2wTok c2wFinal) =
        (.ok ((List.range 2).flatMap c2wPages ++ c2wFinal), l2) ∧
      l2.length = 2 + 1 ∧
      ((List.range 2).flatMap c2wPages ++ c2wFinal).length = 100 * 2 + 37) :=
  ⟨⟨by norm_num, fun _ _ => rfl, fun i _ => by simp [c2wTok], rfl⟩,
    claim_C2_cursor_termination 2 c2wPages c2wTok c2wFinal
      (by norm_num) (fun _ _ => rfl) (fun i _ => by simp [c2wTok]) rfl⟩

/-- C10: if the second response (reached via token `t`) is a full page
with no token, the cursor loop neither terminates normally nor signals
cursor-unsupported: it keeps re-issuing the request with the unchanged
cursor `t`, re-appending the same page, until the 200-iteration safety
bound stops it, and the duplicated sequence is then cached. -/
theorem claim_C10_stuck_cursor (send : Send) (r0 rP : Response) (t : String)
    (hsend0 : ∀ i, send i (cursorPathFor "") = .ok r0)
    (hsendT : ∀ i, send i (cursorPathFor t) = .ok rP)
    (hc0 : nextCursorOf r0 = some t)
    (hcP : nextCursorOf rP = none)
    (hlenP : ((rP.Resources).getD []).length = PAGE_SIZE) :
    _fetchAllUsersByCursor send =
      (.ok ((r0.Resources).getD [] ++
          (List.replicate 199 ((rP.Resources).getD [])).flatten),
        cursorPathFor "" :: List.replicate 199 (cursorPathFor t)) ∧
    (cursorPathFor "" :: List.replicate 199 (cursorPathFor t)).length = 200 ∧
    (∀ now, getAllUsers send initialCache now false =
      (.ok ((r0.Resources).getD [] ++
          (List.replicate 199 ((rP.Resources).getD [])).flatten),
        _setCache now ((r0.Resources).getD [] ++
          (List.replicate 199 ((rP.Resources).getD [])).flatten),
        cursorPathFor "" :: List.replicate 199 (cursorPathFor t))) := by
  have hfetch : _fetchAllUsersByCursor send =
      (.ok ((r0.Resources).getD [] ++
          (List.replicate 199 ((rP.Resources).getD [])).flatten),
        cursorPathFor "" :: List.replicate 199 (cursorPathFor t)) := by
    show cursorLoop send 200 1 "" [] [] = _
    rw [show (200 : Nat) = 199 + 1 from rfl]
    rw [cursorLoop_token send (hsend0 ([] : List String).length) hc0]
    rw [cursorLoop_stuck send rP t (fun i => hsendT i) hcP hlenP 199 2
      ([] ++ (r0.Resources).getD []) ([] ++ [cursorPathFor ""]) (by omega)]
    simp
  refine ⟨hfetch, by simp, ?_⟩
  intro now
  simp [getAllUsers, _isCacheValid, initialCache, _fullFetch, hfetch]

/-- First response of the C10 witness server: a short page carrying the
token `"t"`. -/
def c10r0 : Response :=
  { Resources := some (List.replicate 5 wUserA), nextCursor := some "t" }

/-- Second response of the C10 witness server: a full page, no token. -/
def c10rP : Response := { Resources := some (List.replicate 100 wUserB) }

/-- The C10 witness server, keyed on the request path. -/
def c10server : Send := fun _ p =>
  if p = cursorPathFor "t" then .ok c10rP else .ok c10r0

theorem claim_C10_stuck_cursor_witness :
    ((∀ i, c10server i (cursorPathFor "") = .ok c10r0) ∧
      (∀ i, c10server i (cursorPathFor "t") = .ok c10rP) ∧
      nextCursorOf c10r0 = some "t" ∧
      nextCursorOf c10rP = none ∧
      ((c10rP.Resources).getD []).length = PAGE_SIZE) ∧
    (_fetchAllUsersByCursor c10server =
      (.ok ((c10r0.Resources).getD [] ++
          (List.replicate 199 ((c10rP.Resources).getD [])).flatten),
        cursorPathFor "" :: List.replicate 199 (cursorPathFor "t")) ∧
    (cursorPathFor "" :: List.replicate 199 (cursorPathFor "t")).length = 200 ∧
    (∀ now, getAllUsers c10server initialCache now false =
      (.ok ((c10r0.Resources).getD [] ++
          (List.replicate 199 ((c10rP.Resources).getD [])).flatten),
        _setCache now ((c10r0.Resources).getD [] ++
          (List.replicate 199 ((c10rP.Resources).getD [])).flatten),
        cursorPathFor "" :: List.replicate 199 (cursorPathFor "t")))) :=
  have h0 : ∀ i, c10server i (cursorPathFor "") = .ok c10r0 := fun _ => by
    rw [c10server]
    rw [if_neg (by decide)]
  have hT : ∀ i, c10server i (cursorPathFor "t") = .ok c10rP := fun _ => by
    rw [c10server]
    rw [if_pos rfl]
  ⟨⟨h0, hT, rfl, rfl, rfl⟩,
    claim_C10_stuck_cursor c10server c10r0 c10rP "t" h0 hT rfl rfl rfl⟩

/-- The mock server of spec property P5: three offset pages of 100, 100
and 50 records, `totalResults = 250` throughout. -/
def c6server (R1 R2 R3 : List UserRecord) : Send := fun i _ =>
  if i = 0 then .ok { Resources := some R1, totalResults := some 250 }
  else if i = 1 then .ok { Resources := some R2, totalResults := some 250 }
  else .ok { Resources := some R3, totalResults := some 250 }

/-- C6: with `totalResults = 250` and pages of 100, 100 and 50 records,
the offset fetch issues exactly the three requests `startIndex`
1, 101, 201 and returns all 250 records; in general the loop advances
the start index by the page size per iteration and stops as soon as the
start index exceeds the last-seen `totalResults` or a page is empty. -/
theorem claim_C6_offset_termination (R1 R2 R3 : List UserRecord)
    (h1 : R1.length = 100) (h2 : R2.length = 100) (h3 : R3.length = 50) :
    (_fetchAllUsersByStartIndex (c6server R1 R2 R3) =
        (.ok (R1 ++ R2 ++ R3),
          [offsetPathFor 1, offsetPathFor 101, offsetPathFor 201]) ∧
      (R1 ++ R2 ++ R3).length = 250) ∧
    (∀ (send : Send) (fuel : Nat) (s : Int) (total : Option Int)
        (acc : List UserRecord) (log : List String),
      leTotal s total = false →
      startIndexLoop send fuel s total acc log = (.ok acc, log)) ∧
    (∀ (send : Send) (fuel : Nat) (s : Int) (total : Option Int)
        (acc : List UserRecord) (log : List String) (res : Response),
      leTotal s total = true →
      send log.length (offsetPathFor s) = .ok res →
      (res.Resources).getD [] = [] →
      startIndexLoop send (fuel + 1) s total acc log =
        (.ok acc, log ++ [offsetPathFor s])) ∧
    (∀ (send : Send) (fuel : Nat) (s : Int) (total : Option Int)
        (acc : List UserRecord) (log : List String) (res : Response),
      leTotal s total = true →
      send log.length (offsetPathFor s) = .ok res →
      (res.Resources).getD [] ≠ [] →
      startIndexLoop send (fuel + 1) s total acc log =
        startIndexLoop send fuel (s + (PAGE_SIZE : Int))
          (some ((res.totalResults).getD 0))
          (acc ++ (res.Resources).getD []) (log ++ [offsetPathFor s])) := by
  refine ⟨⟨?_, by simp [h1, h2, h3]⟩,
    fun send fuel s total acc log h => startIndexLoop_exceed send h,
    fun send fuel s total acc log res hle hs hz =>
      startIndexLoop_empty send hle hs hz,
    fun send fuel s total acc log res hle hs hz =>
      startIndexLoop_advance send hle hs hz⟩
  have hne1 : R1 ≠ [] := by intro hnil; rw [hnil] at h1; simp at h1
  have hne2 : R2 ≠ [] := by intro hnil; rw [hnil] at h2; simp at h2
  have hne3 : R3 ≠ [] := by intro hnil; rw [hnil] at h3; simp at h3
  show startIndexLoop (c6server R1 R2 R3) 200 1 none [] [] = _
  have e1 : startIndexLoop (c6server R1 R2 R3) 200 1 none [] [] =
      startIndexLoop (c6server R1 R2 R3) 199 101 (some 250) R1 [offsetPathFor 1] := by
    rw [show (200 : Nat) = 199 + 1 from rfl]
    rw [startIndexLoop_advance (c6server R1 R2 R3) (by rfl)
      (show c6server R1 R2 R3 ([] : List String).length (offsetPathFor 1) =
        .ok { Resources := some R1, totalResults := some 250 } from by simp [c6server])
      (by simpa using hne1)]
    norm_num [PAGE_SIZE]
  have e2 : startIndexLoop (c6server R1 R2 R3) 199 101 (some 250) R1 [offsetPathFor 1] =
      startIndexLoop (c6server R1 R2 R3) 198 201 (some 250) (R1 ++ R2)
        [offsetPathFor 1, offsetPathFor 101] := by
    rw [show (199 : Nat) = 198 + 1 from rfl]
    rw [startIndexLoop_advance (c6server R1 R2 R3) (by rfl)
      (show c6server R1 R2 R3 ([offsetPathFor 1]).length (offsetPathFor 101) =
        .ok { Resources := some R2, totalResults := some 250 } from by simp [c6server])
      (by simpa using hne2)]
    norm_num [PAGE_SIZE]
  have e3 : startIndexLoop (c6server R1 R2 R3) 198 201 (some 250) (R1 ++ R2)
        [offsetPathFor 1, offsetPathFor 101] =
      startIndexLoop (c6server R1 R2 R3) 197 301 (some 250) (R1 ++ R2 ++ R3)
        [offsetPathFor 1, offsetPathFor 101, offsetPathFor 201] := by
    rw [show (198 : Nat) = 197 + 1 from rfl]
    rw [startIndexLoop_advance (c6server R1 R2 R3) (by rfl)
      (show c6server R1 R2 R3
          ([offsetPathFor 1, offsetPathFor 101]).length (offsetPathFor 201) =
        .ok { Resources := some R3, totalResults := some 250 } from by simp [c6server])
      (by simpa using hne3)]
    norm_num [PAGE_SIZE]
  rw [e1, e2, e3, startIndexLoop_exceed (c6server R1 R2 R3) (by rfl)]

theorem claim_C6_offset_termination_witness :
    ((List.replicate 100 wUserA).length = 100 ∧
      (List.replicate 100 wUserB).length = 100 ∧
      (List.replicate 50 wUserA).length = 50) ∧
    ((_fetchAllUsersByStartIndex
        (c6server (List.replicate 100 wUserA) (List.replicate 100 wUserB)
          (List.replicate 50 wUserA)) =
        (.ok (List.replicate 100 wUserA ++ List.replicate 100 wUserB ++
            List.replicate 50 wUserA),
          [offsetPathFor 1, offsetPathFor 101, offsetPathFor 201]) ∧
      (List.replicate 100 wUserA ++ List.replicate 100 wUserB ++
        List.replicate 50 wUserA).length = 250) ∧
    (∀ (send : Send) (fuel : Nat) (s : Int) (total : Option Int)
        (acc : List UserRecord) (log : List String),
      leTotal s total = false →
      startIndexLoop send fuel s total acc log = (.ok acc, log)) ∧
    (∀ (send : Send) (fuel : Nat) (s : Int) (total : Option Int)
        (acc : List UserRecord) (log : List String) (res : Response),
      leTotal s total = true →
      send log.length (offsetPathFor s) = .ok res →
      (res.Resources).getD [] = [] →
      startIndexLoop send (fuel + 1) s total acc log =
        (.ok acc, log ++ [offsetPathFor s])) ∧
    (∀ (send : Send) (fuel : Nat) (s : Int) (total : Option Int)
        (acc : List UserRecord) (log : List String) (res : Response),
      leTotal s total = true →
      send log.length (offsetPathFor s) = .ok res →
      (res.Resources).getD [] ≠ [] →
      startIndexLoop send (fuel + 1) s total acc log =
        startIndexLoop send fuel (s + (PAGE_SIZE : Int))
          (some ((res.totalResults).getD 0))
          (acc ++ (res.Resources).getD []) (log ++ [offsetPathFor s]))) :=
  ⟨⟨rfl, rfl, rfl⟩,
    claim_C6_offset_termination (List.replicate 100 wUserA)
      (List.replicate 100 wUserB) (List.replicate 50 wUserA) rfl rfl rfl⟩

/-- C5 (amended: the cache counts as valid when the cached `users` field
is present — non-`null`, even if it is an empty array — and its age is
strictly below the TTL): a valid cache is served verbatim with no remote
request; otherwise the full-catalog fetch runs, and on success its result
is stored with the current timestamp and returned. -/
theorem claim_C5_cache_validity (send : Send) (cache : Cache) (now : Int) :
    (cache.users.isSome = true → now - cache.ts < CACHE_TTL_MS →
      getAllUsers send cache now false = (.ok (cache.users.getD []), cache, [])) ∧
    ((cache.users = none ∨ CACHE_TTL_MS ≤ now - cache.ts) →
      ∀ users log, _fullFetch send = (.ok users, log) →
      getAllUsers send cache now false =
        (.ok users, _setCache now users, log)) := by
  constructor
  · intro hsome hage
    have hv : _isCacheValid cache now = true := by
      simp [_isCacheValid, hsome, hage]
    simp [getAllUsers, hv]
  · intro hinv users log hf
    have hv : _isCacheValid cache now = false := by
      rcases hinv with h | h
      · simp [_isCacheValid, h]
      · have hlt : ¬(now - cache.ts < CACHE_TTL_MS) := by omega
        simp [_isCacheValid, hlt]
    simp [getAllUsers, hv, hf]

/-- A server whose single cursor-mode page is `[wUserA]` (one record,
short page, no token). -/
def c5sendW : Send := fun _ _ => .ok { Resources := some [wUserA] }

theorem claim_C5_cache_validity_witness :
    (({ ts := 0, users := some [wUserB] } : Cache).users.isSome = true) ∧
    ((1 : Int) - ({ ts := 0, users := some [wUserB] } : Cache).ts < CACHE_TTL_MS) ∧
    getAllUsers c5sendW { ts := 0, users := some [wUserB] } 1 false =
      (.ok (({ ts := 0, users := some [wUserB] } : Cache).users.getD []),
        { ts := 0, users := some [wUserB] }, []) :=
  ⟨rfl, by decide,
    (claim_C5_cache_validity c5sendW { ts := 0, users := some [wUserB] } 1).1
      rfl (by decide)⟩

/-- C5, counterexample to the claim as stated: a cached EMPTY sequence
with a fresh timestamp is served from the cache (no request, no store),
although the claim says an empty cache must trigger a full fetch — which
here would have returned `[wUserA]` and stored it. -/
theorem claim_C5_counterexample :
    getAllUsers c5sendW { ts := 0, users := some [] } 1 false =
      (.ok [], { ts := 0, users := some [] }, []) ∧
    _fullFetch c5sendW = (.ok [wUserA], [cursorPathFor ""]) ∧
    ([] : List UserRecord) ≠ [wUserA] :=
  ⟨by decide, by decide, by decide⟩

/-- C7: whenever `getAllUsers` ends in an error, the cache is exactly the
cache it started with; the cache is written only after a traversal
returns successfully. -/
theorem claim_C7_cache_preserved_on_error (send : Send) (cache : Cache)
    (now : Int) (forceRefresh : Bool) (e : JSError)
    (h : (getAllUsers send cache now forceRefresh).1 = .error e) :
    (getAllUsers send cache now forceRefresh).2.1 = cache := by
  by_cases hv : (!forceRefresh && _isCacheValid cache now) = true
  · rw [getAllUsers, if_pos hv] at h
    simp at h
  · rcases hf : _fullFetch send with ⟨r, log⟩
    cases r with
    | ok users =>
      rw [getAllUsers, if_neg hv, hf] at h
      simp at h
    | error e2 =>
      rw [getAllUsers, if_neg hv, hf]

/-- A generic transport failure (no `code` property). -/
def netErr : JSError := { message := "network error" }

/-- A server that always throws a generic transport error. -/
def allFailServer : Send := fun _ _ => .error netErr

theorem claim_C7_cache_preserved_on_error_witness :
    (getAllUsers allFailServer initialCache 0 false).1 = .error netErr ∧
    (getAllUsers allFailServer initialCache 0 false).2.1 = initialCache :=
  ⟨by decide,
    claim_C7_cache_preserved_on_error allFailServer initialCache 0 false netErr
      (by decide)⟩

/-- A server whose cursor-mode request fails with a generic transport
error while the offset mode works (one page of one record). -/
def c1server : Send := fun _ p =>
  if p = cursorPathFor "" then .error netErr
  else if p = offsetPathFor 1 then
    .ok { Resources := some [wUserB], totalResults := some 1 }
  else .ok { Resources := some [] }

/-- C1, evaluated at the failing input: the first cursor request rejects
with a generic transport error whose `code` is NOT the cursor-unsupported
discriminator, yet `getAllUsers` does not propagate it — the bare
`catch` falls back to the offset traversal and returns (and caches) its
result.  The spec (and the otherwise-unused `CURSOR_UNSUPPORTED`
discriminator in the code) say only the cursor-unsupported condition may
trigger the fallback. -/
theorem claim_C1_catchall_fallback :
    netErr.code ≠ some "CURSOR_UNSUPPORTED" ∧
    _fetchAllUsersByCursor c1server = (.error netErr, [cursorPathFor ""]) ∧
    getAllUsers c1server initialCache 0 false =
      (.ok [wUserB], _setCache 0 [wUserB], [cursorPathFor "", offsetPathFor 1]) :=
  ⟨by decide, by decide, by decide⟩

/-- C3: if the very first cursor-mode response is a full page (exactly
`PAGE_SIZE` records) without a next-cursor token, the client raises the
distinguished cursor-unsupported error (stable discriminator code
`CURSOR_UNSUPPORTED`), discards that first attempt's records, and runs
the complete offset traversal starting at `startIndex = 1`; the
cursor-unsupported condition never escapes `getAllUsers` (as long as the
transport itself never produces that exact error). -/
theorem claim_C3_cursor_unsupported_fallback (send : Send) (res0 : Response)
    (h0 : send 0 (cursorPathFor "") = .ok res0)
    (hR : ((res0.Resources).getD []).length = PAGE_SIZE)
    (hnc : nextCursorOf res0 = none) :
    _fetchAllUsersByCursor send =
      (.error cursorUnsupportedError, [cursorPathFor ""]) ∧
    cursorUnsupportedError.code = some "CURSOR_UNSUPPORTED" ∧
    (∀ (cache : Cache) (now : Int),
      getAllUsers send cache now true =
        (match _fetchAllUsersByStartIndex send with
          | (.ok users, log) =>
            (.ok users, _setCache now users, cursorPathFor "" :: log)
          | (.error e, log) => (.error e, cache, cursorPathFor "" :: log))) ∧
    (∀ send2 : Send,
      ((_fetchAllUsersByStartIndex send2).2).head? = some (offsetPathFor 1)) ∧
    (∀ (send2 : Send) (cache : Cache) (now : Int) (f : Bool),
      (∀ i p, send2 i p ≠ .error cursorUnsupportedError) →
      (getAllUsers send2 cache now f).1 ≠ .error cursorUnsupportedError) := by
  have ha : _fetchAllUsersByCursor send =
      (.error cursorUnsupportedError, [cursorPathFor ""]) := by
    show cursorLoop send 200 1 "" [] [] = _
    rw [show (200 : Nat) = 199 + 1 from rfl]
    rw [cursorLoop_unsupported send
      (show send ([] : List String).length (cursorPathFor "") = .ok res0 from h0)
      hnc hR]
    simp
  refine ⟨ha, rfl, ?_, ?_, ?_⟩
  · intro cache now
    rcases hsi : _fetchAllUsersByStartIndex send with ⟨r, log2⟩
    cases r with
    | ok users => simp [getAllUsers, _fullFetch, ha, hsi]
    | error e => simp [getAllUsers, _fullFetch, ha, hsi]
  · intro send2
    show (startIndexLoop send2 200 1 none [] []).2.head? = _
    rw [show (200 : Nat) = 199 + 1 from rfl]
    rcases hs : send2 ([] : List String).length (offsetPathFor 1) with e | res
    · rw [startIndexLoop_error send2 (show leTotal 1 none = true from rfl) hs]
      simp
    · by_cases hz : (res.Resources).getD [] = []
      · rw [startIndexLoop_empty send2 (show leTotal 1 none = true from rfl) hs hz]
        simp
      · rw [startIndexLoop_advance send2 (show leTotal 1 none = true from rfl) hs hz]
        obtain ⟨l2, hl⟩ := startIndexLoop_log_extend send2 199
          (1 + (PAGE_SIZE : Int)) (some ((res.totalResults).getD 0))
          ([] ++ (res.Resources).getD []) ([] ++ [offsetPathFor 1])
        rw [hl]
        simp
  · intro send2 cache now f hne
    by_cases hv : (!f && _isCacheValid cache now) = true
    · rw [getAllUsers, if_pos hv]
      simp
    · rcases hc : _fetchAllUsersByCursor send2 with ⟨rc, logc⟩
      cases rc with
      | ok users =>
        rw [getAllUsers, if_neg hv]
        simp [_fullFetch, hc]
      | error e =>
        rcases hsi : _fetchAllUsersByStartIndex send2 with ⟨ro, logo⟩
        cases ro with
        | ok users =>
          rw [getAllUsers, if_neg hv]
          simp [_fullFetch, hc, hsi]
        | error e2 =>
          have h1 : (startIndexLoop send2 200 1 none [] []).1 = .error e2 := by
            show (_fetchAllUsersByStartIndex send2).1 = _
            rw [hsi]
          obtain ⟨i, p, hep⟩ :=
            startIndexLoop_error_of_send send2 200 1 none [] [] e2 h1
          have hne2 : e2 ≠ cursorUnsupportedError := by
            intro he
            rw [he] at hep
            exact hne i p hep
          rw [getAllUsers, if_neg hv]
          simp only [_fullFetch, hc, hsi]
          intro hcontra
          exact hne2 (by injection hcontra)

/-- The first cursor-mode response of the C3 witness server: exactly 100
records, no token. -/
def c3res0 : Response := { Resources := some (List.replicate 100 wUserA) }

/-- The C3 witness server: a full token-less page on the cursor path,
then a one-record offset catalog. -/
def c3wServer : Send := fun _ p =>
  if p = cursorPathFor "" then .ok c3res0
  else if p = offsetPathFor 1 then
    .ok { Resources := some [wUserB], totalResults := some 1 }
  else .ok { Resources := some [] }

theorem claim_C3_cursor_unsupported_fallback_witness :
    (c3wServer 0 (cursorPathFor "") = .ok c3res0 ∧
      ((c3res0.Resources).getD []).length = PAGE_SIZE ∧
      nextCursorOf c3res0 = none) ∧
    (_fetchAllUsersByCursor c3wServer =
      (.error cursorUnsupportedError, [cursorPathFor ""]) ∧
    cursorUnsupportedError.code = some "CURSOR_UNSUPPORTED" ∧
    (∀ (cache : Cache) (now : Int),
      getAllUsers c3wServer cache now true =
        (match _fetchAllUsersByStartIndex c3wServer with
          | (.ok users, log) =>
            (.ok users, _setCache now users, cursorPathFor "" :: log)
          | (.error e, log) => (.error e, cache, cursorPathFor "" :: log))) ∧
    (∀ send2 : Send,
      ((_fetchAllUsersByStartIndex send2).2).head? = some (offsetPathFor 1)) ∧
    (∀ (send2 : Send) (cache : Cache) (now : Int) (f : Bool),
      (∀ i p, send2 i p ≠ .error cursorUnsupportedError) →
      (getAllUsers send2 cache now f).1 ≠ .error cursorUnsupportedError)) :=
  ⟨⟨by decide, rfl, rfl⟩,
    claim_C3_cursor_unsupported_fallback c3wServer c3res0 (by decide) rfl rfl⟩

/-- Fall-through step of the cursor loop (no token, page not shorter
than the page size, unsupported-check false): loop again with the same
cursor. -/
theorem cursorLoop_fallthrough (send : Send) {res : Response}
    {fuel safety : Nat} {cursor : String} {acc : List UserRecord}
    {log : List String}
    (h : send log.length (cursorPathFor cursor) = .ok res)
    (hc : nextCursorOf res = none)
    (hlt : ¬((res.Resources).getD []).length < PAGE_SIZE)
    (hub : (((res.Resources).getD []).length == PAGE_SIZE && safety == 1) = false) :
    cursorLoop send (fuel + 1) safety cursor acc log =
      cursorLoop send fuel (safety + 1) cursor (acc ++ (res.Resources).getD [])
        (log ++ [cursorPathFor cursor]) := by
  simp [cursorLoop, h, hc, hlt, hub]

/-- Every request path the cursor loop logs has the shape
`cursorPathFor c` for some token `c`. -/
theorem cursorLoop_paths (send : Send) :
    ∀ (fuel safety : Nat) (cursor : String) (acc : List UserRecord)
      (log : List String),
    (∀ p ∈ log, ∃ c, p = cursorPathFor c) →
    ∀ p ∈ (cursorLoop send fuel safety cursor acc log).2,
      ∃ c, p = cursorPathFor c := by
  intro fuel
  induction fuel with
  | zero =>
    intro safety cursor acc log hlog p hp
    rw [cursorLoop_zero] at hp
    exact hlog p hp
  | succ n ih =>
    intro safety cursor acc log hlog
    have hlog2 : ∀ p ∈ log ++ [cursorPathFor cursor], ∃ c, p = cursorPathFor c := by
      intro p hp
      rcases List.mem_append.mp hp with h | h
      · exact hlog p h
      · exact ⟨cursor, by simpa using h⟩
    cases hs : send log.length (cursorPathFor cursor) with
    | error e =>
      rw [cursorLoop_error send hs]
      exact hlog2
    | ok res =>
      cases hc : nextCursorOf res with
      | some c =>
        rw [cursorLoop_token send hs hc]
        exact ih (safety + 1) c _ _ hlog2
      | none =>
        by_cases hlt : ((res.Resources).getD []).length < PAGE_SIZE
        · rw [cursorLoop_last send hs hc hlt]
          exact hlog2
        · by_cases hub : (((res.Resources).getD []).length == PAGE_SIZE &&
              safety == 1) = true
          · have hlen : ((res.Resources).getD []).length = PAGE_SIZE := by
              simpa using (Bool.and_eq_true_iff.mp hub).1
            have hone : safety = 1 := by
              simpa using (Bool.and_eq_true_iff.mp hub).2
            subst hone
            rw [cursorLoop_unsupported send hs hc hlen]
            exact hlog2
          · rw [cursorLoop_fallthrough send hs hc hlt (by simpa using hub)]
            exact ih (safety + 1) cursor _ _ hlog2

/-- The first request of the cursor fetch is always the empty-token
path. -/
theorem fetchByCursor_first_path (send : Send) :
    ((_fetchAllUsersByCursor send).2).head? = some (cursorPathFor "") := by
  show ((cursorLoop send 200 1 "" [] []).2).head? = _
  rw [show (200 : Nat) = 199 + 1 from rfl]
  cases hs : send ([] : List String).length (cursorPathFor "") with
  | error e =>
    rw [cursorLoop_error send hs]
    simp
  | ok res =>
    cases hc : nextCursorOf res with
    | some c =>
      rw [cursorLoop_token send hs hc]
      obtain ⟨l2, hl⟩ := cursorLoop_log_extend send 199 2 c
        ([] ++ (res.Resources).getD []) ([] ++ [cursorPathFor ""])
      rw [hl]
      simp
    | none =>
      by_cases hlt : ((res.Resources).getD []).length < PAGE_SIZE
      · rw [cursorLoop_last send hs hc hlt]
        simp
      · by_cases hlen : ((res.Resources).getD []).length = PAGE_SIZE
        · rw [cursorLoop_unsupported send hs hc hlen]
          simp
        · rw [cursorLoop_fallthrough send hs hc hlt (by simp [hlen])]
          obtain ⟨l2, hl⟩ := cursorLoop_log_extend send 199 2 ""
            ([] ++ (res.Resources).getD []) ([] ++ [cursorPathFor ""])
          rw [hl]
          simp

/-- C8 (amended: requests are built from the parameters
`cursor`/`count=100`/`attributes`, but parameters with EMPTY values are
dropped from the query string, so the first request — whose cursor token
is the empty string — carries no `cursor` parameter at all; requests
with a non-empty token carry `cursor=<encoded token>`). -/
theorem claim_C8_request_parameters (c : String) (hc : c ≠ "") :
    (∀ (send : Send) (p : String), p ∈ (_fetchAllUsersByCursor send).2 →
      ∃ tk, p = cursorPathFor tk) ∧
    (∀ send : Send,
      ((_fetchAllUsersByCursor send).2).head? = some (cursorPathFor "")) ∧
    cursorPathFor c = "/Users?" ++ String.intercalate "&"
      ["cursor=" ++ encodeURIComponent c, "count=100",
        "attributes=" ++ encodeURIComponent ATTRS] ∧
    cursorPathFor "" =
      "/Users?count=100&attributes=userName%2CdisplayName%2Curn%3Asap%3Acloud%3Ascim%3Aschemas%3Aextension%3Acustom%3A2.0%3AUser" ∧
    ATTRS = "userName,displayName,urn:sap:cloud:scim:schemas:extension:custom:2.0:User" := by
  refine ⟨?_, fetchByCursor_first_path, ?_, by decide, by decide⟩
  · intro send p hp
    exact cursorLoop_paths send 200 1 "" [] [] (by simp) p hp
  · have hfil : ([("cursor", c), ("count", toString PAGE_SIZE),
        ("attributes", ATTRS)].filter fun kv => kv.2 != "") =
        [("cursor", c), ("count", toString PAGE_SIZE), ("attributes", ATTRS)] := by
      simp [List.filter_cons, hc]
      decide
    show "/Users?" ++ String.intercalate "&"
      ((([("cursor", c), ("count", toString PAGE_SIZE),
        ("attributes", ATTRS)].filter fun kv => kv.2 != "").map
          fun kv => kv.1 ++ "=" ++ encodeURIComponent kv.2)) = _
    rw [hfil]
    rfl

/-- A server answering every request with an empty page. -/
def c8server : Send := fun _ _ => .ok { Resources := some [] }

/-- C8, counterexample to the claim as stated: the very first cursor-mode
request's query string contains no `cursor` parameter at all (the empty
value is filtered out of the query string), so it does not "include a
cursor parameter with empty value". -/
theorem claim_C8_counterexample :
    (_fetchAllUsersByCursor c8server).2 = [cursorPathFor ""] ∧
    ¬ List.IsInfix ("cursor".data) ((cursorPathFor "").data) ∧
    cursorPathFor "" ≠ "/Users?" ++ String.intercalate "&"
      ["cursor=", "count=100", "attributes=" ++ encodeURIComponent ATTRS] :=
  ⟨by decide, by decide, by decide⟩

theorem claim_C8_request_parameters_witness :
    ("tok" ≠ "") ∧
    ((∀ (send : Send) (p : String), p ∈ (_fetchAllUsersByCursor send).2 →
      ∃ tk, p = cursorPathFor tk) ∧
    (∀ send : Send,
      ((_fetchAllUsersByCursor send).2).head? = some (cursorPathFor "")) ∧
    cursorPathFor "tok" = "/Users?" ++ String.intercalate "&"
      ["cursor=" ++ encodeURIComponent "tok", "count=100",
        "attributes=" ++ encodeURIComponent ATTRS] ∧
    cursorPathFor "" =
      "/Users?count=100&attributes=userName%2CdisplayName%2Curn%3Asap%3Acloud%3Ascim%3Aschemas%3Aextension%3Acustom%3A2.0%3AUser" ∧
    ATTRS = "userName,displayName,urn:sap:cloud:scim:schemas:extension:custom:2.0:User") :=
  ⟨by decide, claim_C8_request_parameters "tok" (by decide)⟩

/-- C9: a record with no custom extension, or no `attributes` list in it,
or no attribute named `customAttribute1` in that list, yields no company
value, is excluded from every non-empty company filter, and the
filtering itself never produces an error (an `ok` catalog always maps to
an `ok` filtered result). -/
theorem claim_C9_missing_attribute_safe (companyName : String) (u : UserRecord)
    (hc : companyName ≠ "")
    (habs : u.extCustom = none ∨
      (∃ e, u.extCustom = some e ∧ e.attributes = none) ∨
      (∀ e, u.extCustom = some e →
        ∀ a ∈ (e.attributes).getD [], a.name ≠ some "customAttribute1")) :
    _getCompanyValue u = none ∧
    (∀ users : List UserRecord,
      u ∉ users.filter fun v => _getCompanyValue v == some companyName) ∧
    (∀ (send : Send) (cache : Cache) (now : Int) (f : Bool)
        (users : List UserRecord) (cache2 : Cache) (log : List String),
      getAllUsers send cache now f = (.ok users, cache2, log) →
      getUsersByCompany send cache now companyName f =
        (.ok ((users.filter
            fun v => _getCompanyValue v == some companyName).map _mapLite),
          cache2, log)) := by
  have hval : _getCompanyValue u = none := by
    rcases habs with h | ⟨e, he, hea⟩ | h
    · simp [_getCompanyValue, h]
    · simp [_getCompanyValue, he, hea]
    · cases hext : u.extCustom with
      | none => simp [_getCompanyValue, hext]
      | some e =>
        have hfind : ((e.attributes).getD []).find?
            (fun x => x.name == some "customAttribute1") = none := by
          apply List.find?_eq_none.mpr
          intro x hx
          have := h e hext x hx
          simpa using this
        simp [_getCompanyValue, hext, hfind]
  refine ⟨hval, ?_, ?_⟩
  · intro users hmem
    have := (List.mem_filter.mp hmem).2
    rw [hval] at this
    simp at this
  · intro send cache now f users cache2 log hget
    rw [getUsersByCompany, if_neg hc, hget]

theorem claim_C9_missing_attribute_safe_witness :
    ("ACME" ≠ "" ∧
      (({} : UserRecord).extCustom = none ∨
        (∃ e, ({} : UserRecord).extCustom = some e ∧ e.attributes = none) ∨
        (∀ e, ({} : UserRecord).extCustom = some e →
          ∀ a ∈ (e.attributes).getD [], a.name ≠ some "customAttribute1"))) ∧
    (_getCompanyValue {} = none ∧
    (∀ users : List UserRecord,
      ({} : UserRecord) ∉ users.filter
        fun v => _getCompanyValue v == some "ACME") ∧
    (∀ (send : Send) (cache : Cache) (now : Int) (f : Bool)
        (users : List UserRecord) (cache2 : Cache) (log : List String),
      getAllUsers send cache now f = (.ok users, cache2, log) →
      getUsersByCompany send cache now "ACME" f =
        (.ok ((users.filter
            fun v => _getCompanyValue v == some "ACME").map _mapLite),
          cache2, log))) :=
  ⟨⟨by decide, Or.inl rfl⟩,
    claim_C9_missing_attribute_safe "ACME" {} (by decide) (Or.inl rfl)⟩
